import Mathlib

/-!
# Verification of the focus-pomodoro timer core

Shallow embedding of `src/scripts/pomodoroTimer.js` (class `PomodoroTimer`)
and of the background tick worker.  Session kinds are the five string keys
of `this.sessions`; the cycle state machine is modelled as a step function
over an explicit state record, with the 3-second deferred
"arm or auto-start next session" actions kept in a pending queue (the
source schedules them with `setTimeout` and never cancels them).
-/

namespace Pomodoro

/-- The five session kinds: the keys of `this.sessions`
(`pomodoro`, `long-focus`, `short-break`, `long-break`, `refocus-2`). -/
inductive SessionKind
| pomodoro
| longFocus
| shortBreak
| longBreak
| refocus2
deriving DecidableEq

/-- The JS string key of a session kind. -/
def SessionKind.toStr : SessionKind → String
| .pomodoro => "pomodoro"
| .longFocus => "long-focus"
| .shortBreak => "short-break"
| .longBreak => "long-break"
| .refocus2 => "refocus-2"

/-- The `type` field of a session spec: `'work'` or `'break'`. -/
inductive SessionType
| work
| brk
deriving DecidableEq

/-- The `type` field of each entry of `this.sessions` (constructor, lines 56-62). -/
def sessionType : SessionKind → SessionType
| .pomodoro => .work
| .longFocus => .work
| .shortBreak => .brk
| .longBreak => .brk
| .refocus2 => .work

/-- The mutable `minutes` fields of `this.sessions`: `pomodoro`, `short-break`
and `long-break` come from settings and are overwritten by
`saveSettingsFromModal`; `long-focus` (50) and `refocus-2` (2) are fixed. -/
structure Catalog where
  pomodoroMin : Nat
  shortBreakMin : Nat
  longBreakMin : Nat
deriving DecidableEq

/-- `this.sessions[kind].minutes` (constructor lines 56-62 and the
updates in `saveSettingsFromModal` lines 589-591). -/
def sessionMinutes (c : Catalog) : SessionKind → Nat
| .pomodoro => c.pomodoroMin
| .longFocus => 50
| .shortBreak => c.shortBreakMin
| .longBreak => c.longBreakMin
| .refocus2 => 2

/-- `this.settings` (constructor lines 43-50): durations in minutes,
the two auto-start flags and the volume. -/
structure Settings where
  pomodoro : Nat
  shortBreak : Nat
  longBreak : Nat
  autoStartBreaks : Bool
  autoStartPomodoros : Bool
  volume : Nat
deriving DecidableEq

/-- The default settings object (constructor lines 43-50). -/
def defaultSettings : Settings :=
  ⟨25, 5, 15, false, false, 50⟩

/-- A history entry as built in `addToHistory` (lines 452-457):
`{session, timestamp: now.getTime(), duration: sessions[session].minutes, icon}`. -/
structure HistoryEntry where
  session : SessionKind
  timestamp : Int
  duration : Nat
  icon : String
deriving DecidableEq

/-- `addToHistory(session)` (lines 450-468), restricted to its effect on the
history list: build an entry stamped `now`, `unshift` it onto the list, then
filter to keep only entries with `timestamp >= today.getTime()` where
`today` is the start of the current calendar day (`todayStart`). -/
def addToHistory (todayStart now : Int) (c : Catalog) (k : SessionKind)
    (hist : List HistoryEntry) : List HistoryEntry :=
  let entry : HistoryEntry := ⟨k, now, sessionMinutes c k, ""⟩
  (entry :: hist).filter (fun h => todayStart ≤ h.timestamp)

/-! ## JSON values and `JSON.parse`, for the persistence layer

`loadHistory` (lines 529-535) returns `JSON.parse(saved)` verbatim — whatever
JSON value is stored — and `JSON.parse` throws a `SyntaxError` on malformed
input.  We embed a JSON value type and an executable parser for the JSON
fragment the store uses (null, booleans, integers, strings with `\"`/`\\`
escapes, arrays, objects); parse failure models the thrown `SyntaxError`. -/

/-- A parsed JSON value. -/
inductive Json
| null
| bool (b : Bool)
| num (n : Int)
| str (s : String)
| arr (elems : List Json)
| obj (fields : List (String × Json))

/-- JSON whitespace. -/
def isWs (c : Char) : Bool :=
  c = ' ' || c = '\n' || c = '\t' || c = '\r'

/-- Drop leading JSON whitespace. -/
def skipWs : List Char → List Char
| c :: rest => if isWs c then skipWs rest else c :: rest
| [] => []

/-- The `\x7b` character. -/
def lbrace : Char := Char.ofNat 123

/-- The `\x7d` character. -/
def rbrace : Char := Char.ofNat 125

/-- Parse a JSON string body after the opening quote; handles `\"`, `\\`
and `\n` escapes (all the store ever produces is unescaped text). -/
def parseStrBody : List Char → List Char → Option (String × List Char)
| acc, '"' :: rest => some (String.mk acc.reverse, rest)
| acc, '\\' :: '"' :: r => parseStrBody ('"' :: acc) r
| acc, '\\' :: '\\' :: r => parseStrBody ('\\' :: acc) r
| acc, '\\' :: 'n' :: r => parseStrBody ('\n' :: acc) r
| _, '\\' :: _ => none
| acc, c :: rest => parseStrBody (c :: acc) rest
| _, [] => none

/-- Accumulating digit parser: reads a maximal run of digits onto `acc`. -/
def parseNatAcc : Nat → List Char → Option (Nat × List Char)
| acc, c :: rest => if c.isDigit then parseNatAcc (acc * 10 + (c.toNat - 48)) rest else some (acc, c :: rest)
| acc, [] => some (acc, [])

/-- Parse a JSON integer (optional leading minus, then digits). -/
def parseInt : List Char → Option (Int × List Char)
| '-' :: c :: rest =>
  if c.isDigit then
    match parseNatAcc (c.toNat - 48) rest with
    | some (n, r) => some (-(n : Int), r)
    | none => none
  else none
| c :: rest =>
  if c.isDigit then
    match parseNatAcc (c.toNat - 48) rest with
    | some (n, r) => some ((n : Int), r)
    | none => none
  else none
| [] => none

mutual

/-- Parse one JSON value; `fuel` bounds recursion depth. -/
def parseValue : Nat → List Char → Option (Json × List Char)
| 0, _ => none
| fuel + 1, cs =>
  match skipWs cs with
  | [] => none
  | c :: rest =>
    if c = 'n' then
      match rest with
      | 'u' :: 'l' :: 'l' :: r => some (.null, r)
      | _ => none
    else if c = 't' then
      match rest with
      | 'r' :: 'u' :: 'e' :: r => some (.bool true, r)
      | _ => none
    else if c = 'f' then
      match rest with
      | 'a' :: 'l' :: 's' :: 'e' :: r => some (.bool false, r)
      | _ => none
    else if c = '"' then
      match parseStrBody [] rest with
      | some (s, r) => some (.str s, r)
      | none => none
    else if c = '[' then
      match skipWs rest with
      | ']' :: r => some (.arr [], r)
      | r =>
        match parseElems fuel r with
        | some (es, r') => some (.arr es, r')
        | none => none
    else if c = lbrace then
      match skipWs rest with
      | d :: r => if d = rbrace then some (.obj [], r) else
          match parseFields fuel (d :: r) with
          | some (fs, r') => some (.obj fs, r')
          | none => none
      | [] => none
    else
      match parseInt (c :: rest) with
      | some (n, r) => some (.num n, r)
      | none => none

/-- Parse a non-empty comma-separated list of array elements, up to `]`. -/
def parseElems : Nat → List Char → Option (List Json × List Char)
| 0, _ => none
| fuel + 1, cs =>
  match parseValue fuel cs with
  | some (j, r) =>
    match skipWs r with
    | ',' :: r' =>
      match parseElems fuel r' with
      | some (es, r'') => some (j :: es, r'')
      | none => none
    | ']' :: r' => some ([j], r')
    | _ => none
  | none => none

/-- Parse a non-empty comma-separated list of object fields, up to `\x7d`. -/
def parseFields : Nat → List Char → Option (List (String × Json) × List Char)
| 0, _ => none
| fuel + 1, cs =>
  match skipWs cs with
  | '"' :: rest =>
    match parseStrBody [] rest with
    | some (key, r) =>
      match skipWs r with
      | ':' :: r' =>
        match parseValue fuel r' with
        | some (j, r'') =>
          match skipWs r'' with
          | ',' :: r3 =>
            match parseFields fuel r3 with
            | some (fs, r4) => some ((key, j) :: fs, r4)
            | none => none
          | d :: r3 => if d = rbrace then some ([(key, j)], r3) else none
          | [] => none
        | none => none
      | _ => none
    | none => none
  | _ => none

end

/-- `JSON.parse`: parse a whole string as one JSON value;
`none` models the thrown `SyntaxError`. -/
def jsonParse (s : String) : Option Json :=
  match parseValue (s.length + 1) s.data with
  | some (j, rest) => if (skipWs rest).isEmpty then some j else none
  | none => none

/-- `loadHistory()` (lines 529-535): read `localStorage.getItem('pomodoro-history')`
(`none` models a missing key); if the stored value is truthy (non-empty),
return `JSON.parse(saved)` — with no try/catch, so a parse failure is a thrown
`SyntaxError` (modelled by `Except.error`); otherwise return `[]`. -/
def loadHistory (saved : Option String) : Except String Json :=
  match saved with
  | some s =>
    if s = "" then .ok (.arr [])
    else
      match jsonParse s with
      | some j => .ok j
      | none => .error "SyntaxError"
  | none => .ok (.arr [])

/-- `prepareNextSession()` (lines 331-368), session-selection part, verbatim
over the JS strings: from the completed session's key and the current
`pomodorosInCycle`, compute the next session key and the new
`pomodorosInCycle` (reset to 0 only on the long-break branch). -/
def prepareNextSessionStr (currentSession : String) (pomodorosInCycle : Int) :
    String × Int :=
  if currentSession = "pomodoro" then
    if pomodorosInCycle ≥ 4 then ("long-break", 0)
    else ("short-break", pomodorosInCycle)
  else if currentSession = "short-break" ∨ currentSession = "long-break" then
    ("pomodoro", pomodorosInCycle)
  else if currentSession = "long-focus" then ("long-break", pomodorosInCycle)
  else if currentSession = "refocus-2" then ("pomodoro", pomodorosInCycle)
  else ("pomodoro", pomodorosInCycle)

/-- `prepareNextSession()` over the session-kind enumeration (the machine
only ever holds one of the five catalog keys); agrees with
`prepareNextSessionStr` on those keys (`prepareNextSession_agrees`). -/
def nextSessionOf : SessionKind → Int → SessionKind × Int
| .pomodoro, cyc => if cyc ≥ 4 then (.longBreak, 0) else (.shortBreak, cyc)
| .shortBreak, cyc => (.pomodoro, cyc)
| .longBreak, cyc => (.pomodoro, cyc)
| .longFocus, cyc => (.longBreak, cyc)
| .refocus2, cyc => (.pomodoro, cyc)

theorem prepareNextSession_agrees (k : SessionKind) (cyc : Int) :
    prepareNextSessionStr k.toStr cyc =
      ((nextSessionOf k cyc).1.toStr, (nextSessionOf k cyc).2) := by
  cases k
  case pomodoro =>
    by_cases h : cyc ≥ 4 <;>
      simp [SessionKind.toStr, prepareNextSessionStr, nextSessionOf, h]
  all_goals simp [SessionKind.toStr, prepareNextSessionStr, nextSessionOf]

/-! ## The cycle state machine

State of one `PomodoroTimer` instance, restricted to the fields the core
logic reads and writes.  `pending` is the queue of deferred
`setTimeout(..., 3000)` callbacks scheduled by `sessionComplete` and not yet
fired, each recorded with the auto-start decision captured at scheduling
time (`true` = `startNextSession`, `false` = `setupNextSession`); the source
never cancels these timers.  `store` is the content of the persisted
`'pomodoro-history'` record, written by `saveHistory()`.  `todayStart` is
`new Date()` with hours/minutes/seconds/ms zeroed, as a fixed epoch-ms
parameter of the run. -/
structure MState where
  currentSession : SessionKind
  totalSeconds : Int
  remainingSeconds : Int
  isRunning : Bool
  pomodorosInCycle : Int
  totalPomodoros : Int
  currentStreak : Int
  history : List HistoryEntry
  store : List HistoryEntry
  pending : List Bool
  catalog : Catalog
  settings : Settings
  autoModeChecked : Bool
  todayStart : Int
deriving DecidableEq

/-- The auto-start decision of `sessionComplete` (lines 286-297):
`isWork && autoStartBreaks`, else `!isWork && autoStartPomodoros`, else the
legacy `autoMode` checkbox (unchecked counting as false when absent). -/
def decideAutoStart (s : MState) : Bool :=
  let isWork : Bool := sessionType s.currentSession = SessionType.work
  if isWork && s.settings.autoStartBreaks then true
  else if !isWork && s.settings.autoStartPomodoros then true
  else if s.autoModeChecked then true
  else false

/-- `sessionComplete()` (lines 248-308): stop the worker, force
`remainingSeconds` to 0, append to history (which also persists the filtered
list via `saveHistory`), bump the three cycle counters when the completed
session is a `work` session whose kind is `pomodoro`, and schedule the
deferred `startNextSession`/`setupNextSession` 3 seconds later. -/
def sessionComplete (now : Int) (s : MState) : MState :=
  let newHist := addToHistory s.todayStart now s.catalog s.currentSession s.history
  let s1 : MState :=
    { s with
      isRunning := false
      remainingSeconds := 0
      history := newHist
      store := newHist }
  let s2 : MState :=
    if sessionType s1.currentSession = SessionType.work then
      if s1.currentSession = SessionKind.pomodoro then
        { s1 with
          pomodorosInCycle := s1.pomodorosInCycle + 1
          totalPomodoros := s1.totalPomodoros + 1
          currentStreak := s1.currentStreak + 1 }
      else s1
    else s1
  { s2 with pending := s2.pending ++ [decideAutoStart s2] }

/-- `prepareNextSession()` (lines 331-368) at machine level: compute the
next session from the session that is current when the deferred callback
fires, install it, and recompute `totalSeconds`/`remainingSeconds` from the
catalog. -/
def prepareNextSessionM (s : MState) : MState :=
  let next := (nextSessionOf s.currentSession s.pomodorosInCycle).1
  let cyc := (nextSessionOf s.currentSession s.pomodorosInCycle).2
  { s with
    currentSession := next
    pomodorosInCycle := cyc
    totalSeconds := (sessionMinutes s.catalog next : Int) * 60
    remainingSeconds := (sessionMinutes s.catalog next : Int) * 60 }

/-- Firing the oldest pending deferred callback (`setTimeout` queue is FIFO
for equal delays): `setupNextSession()` (lines 310-317) just prepares the
next session; `startNextSession()` (lines 319-329) prepares it and then
starts the timer.  With no pending callback nothing happens. -/
def fireDeferred (s : MState) : MState :=
  match s.pending with
  | [] => s
  | auto :: rest =>
    let s1 := prepareNextSessionM { s with pending := rest }
    if auto then { s1 with isRunning := true } else s1

/-- The inbound events of the machine: the `toggleTimer`/`resetTimer`/
`skipSession` buttons, a mode button (`changeMode`, guarded by
`!this.isRunning` in `init`, lines 127-134), a worker `TICK`
(`handleWorkerMessage`, lines 147-159) and the firing of a pending deferred
callback.  Completion events carry the wall-clock time `now` used to stamp
the history entry. -/
inductive Ev
| toggle
| tick (now : Int)
| reset
| changeMode (k : SessionKind)
| skip (now : Int)
| deferredFire
deriving DecidableEq

/-- One step of the machine on one event, straight from the source:
`toggleTimer` (183-189) flips `isRunning`; a `TICK` (147-159) decrements
`remainingSeconds` and completes the session when it reaches `<= 0`;
`resetTimer` (220-234) stops and restores `remainingSeconds := totalSeconds`;
`changeMode` (164-178) is ignored while running, otherwise installs the new
session; `skipSession` (239-243) completes the session when not running;
`deferredFire` fires the oldest scheduled callback. -/
def step (s : MState) (e : Ev) : MState :=
  match e with
  | .toggle =>
    if s.isRunning then { s with isRunning := false }
    else { s with isRunning := true }
  | .tick now =>
    let s1 : MState := { s with remainingSeconds := s.remainingSeconds - 1 }
    if s1.remainingSeconds ≤ 0 then sessionComplete now s1 else s1
  | .reset => { s with isRunning := false, remainingSeconds := s.totalSeconds }
  | .changeMode k =>
    if s.isRunning then s
    else
      { s with
        currentSession := k
        totalSeconds := (sessionMinutes s.catalog k : Int) * 60
        remainingSeconds := (sessionMinutes s.catalog k : Int) * 60 }
  | .skip now => if s.isRunning then s else sessionComplete now s
  | .deferredFire => fireDeferred s

/-- Run a list of events from a state. -/
def runEvents (s : MState) (evs : List Ev) : MState := evs.foldl step s

/-- States reachable from `init` under any event sequence. -/
inductive Reachable (init : MState) : MState → Prop
| refl : Reachable init init
| step {s : MState} (e : Ev) : Reachable init s → Reachable init (step s e)

theorem reachable_runEvents (init : MState) (evs : List Ev) :
    Reachable init (runEvents init evs) := by
  suffices h : ∀ s, Reachable init s → Reachable init (evs.foldl step s) from
    h init .refl
  induction evs with
  | nil => exact fun s hs => hs
  | cons e rest ih => exact fun s hs => ih (step s e) (.step e hs)

/-- The constructor's state with empty persisted storage and default
settings: `currentSession = 'pomodoro'`, 25 minutes on the clock, all
counters 0, nothing running, nothing pending (lines 43-97); the run's
day starts at epoch-ms 0. -/
def init0 : MState :=
  { currentSession := .pomodoro
    totalSeconds := 1500
    remainingSeconds := 1500
    isRunning := false
    pomodorosInCycle := 0
    totalPomodoros := 0
    currentStreak := 0
    history := []
    store := []
    pending := []
    catalog := ⟨25, 5, 15⟩
    settings := defaultSettings
    autoModeChecked := false
    todayStart := 0 }

/-- `saveSettingsFromModal()` (lines 577-600), state part: overwrite the
duration/auto-start settings with the modal's values, push the three
configurable durations into the catalog, and — only when the timer is not
running — recompute `totalSeconds`/`remainingSeconds` of the current session
from the updated catalog. -/
def saveSettingsFromModal (pom sb lb : Nat) (aSB aSP : Bool) (s : MState) :
    MState :=
  let stg : Settings :=
    { s.settings with
      pomodoro := pom
      shortBreak := sb
      longBreak := lb
      autoStartBreaks := aSB
      autoStartPomodoros := aSP }
  let cat : Catalog := ⟨pom, sb, lb⟩
  let s1 : MState := { s with settings := stg, catalog := cat }
  if s1.isRunning then s1
  else
    { s1 with
      totalSeconds := (sessionMinutes cat s1.currentSession : Int) * 60
      remainingSeconds := (sessionMinutes cat s1.currentSession : Int) * 60 }

/-- `clearHistory()` (lines 517-524): a confirmed clear empties the
in-memory list and persists the empty list; a declined confirmation does
nothing at all. -/
def clearHistory (confirmed : Bool) (s : MState) : MState :=
  if confirmed then { s with history := [], store := [] } else s

/-! ## Claims -/

/-- The persisted history record of the C2 scenario: exactly the JSON
`saveHistory` writes for one pomodoro entry stamped at epoch-ms 5
(i.e. on a day before the current one). -/
def c2SavedStr : String :=
  "[\x7b\"session\":\"pomodoro\",\"timestamp\":5,\"duration\":25,\"icon\":\"\"\x7d]"

/-- C1: for every completed session the next session kind follows the fixed
lookup of `prepareNextSession`: after `pomodoro` it is `long-break` with
`pomodorosInCycle` reset to 0 when the counter is at least 4 and
`short-break` otherwise; after `short-break` or `long-break` it is
`pomodoro`; after `long-focus` it is `long-break`; after `refocus-2` it is
`pomodoro`; and for any other session value it falls back to `pomodoro`. -/
theorem c1_next_session_lookup (cur : String) (cyc : Int) :
    ((cur = "pomodoro" ∧ cyc ≥ 4) →
      prepareNextSessionStr cur cyc = ("long-break", 0)) ∧
    ((cur = "pomodoro" ∧ cyc < 4) →
      prepareNextSessionStr cur cyc = ("short-break", cyc)) ∧
    ((cur = "short-break" ∨ cur = "long-break") →
      prepareNextSessionStr cur cyc = ("pomodoro", cyc)) ∧
    (cur = "long-focus" → prepareNextSessionStr cur cyc = ("long-break", cyc)) ∧
    (cur = "refocus-2" → prepareNextSessionStr cur cyc = ("pomodoro", cyc)) ∧
    (cur ∉ (["pomodoro", "short-break", "long-break", "long-focus",
        "refocus-2"] : List String) →
      prepareNextSessionStr cur cyc = ("pomodoro", cyc)) := by
  refine ⟨?_, ?_, ?_, ?_, ?_, ?_⟩
  · rintro ⟨rfl, h4⟩
    simp [prepareNextSessionStr, h4]
  · rintro ⟨rfl, h4⟩
    simp [prepareNextSessionStr]
    omega
  · rintro (rfl | rfl) <;> simp [prepareNextSessionStr]
  · rintro rfl; simp [prepareNextSessionStr]
  · rintro rfl; simp [prepareNextSessionStr]
  · intro hmem
    simp only [List.mem_cons, List.not_mem_nil, or_false, not_or] at hmem
    obtain ⟨h1, h2, h3, h4, h5⟩ := hmem
    simp [prepareNextSessionStr, h1, h2, h3, h4, h5]

/-- Witness for C1: the lookup evaluated on one concrete input per branch,
including the fallback branch on an unknown session value. -/
theorem c1_next_session_lookup_witness :
    prepareNextSessionStr "pomodoro" 4 = ("long-break", 0) ∧
    prepareNextSessionStr "pomodoro" 2 = ("short-break", 2) ∧
    prepareNextSessionStr "long-break" 3 = ("pomodoro", 3) ∧
    prepareNextSessionStr "long-focus" 1 = ("long-break", 1) ∧
    prepareNextSessionStr "refocus-2" 0 = ("pomodoro", 0) ∧
    prepareNextSessionStr "mystery" 2 = ("pomodoro", 2) :=
  ⟨(c1_next_session_lookup "pomodoro" 4).1 ⟨rfl, by decide⟩,
   (c1_next_session_lookup "pomodoro" 2).2.1 ⟨rfl, by decide⟩,
   (c1_next_session_lookup "long-break" 3).2.2.1 (Or.inr rfl),
   (c1_next_session_lookup "long-focus" 1).2.2.2.1 rfl,
   (c1_next_session_lookup "refocus-2" 0).2.2.2.2.1 rfl,
   (c1_next_session_lookup "mystery" 2).2.2.2.2.2 (by decide)⟩

/-- C2 counterexample: the day filter is NOT applied when the store is
loaded at construction.  With the current day starting at epoch-ms 100, a
persisted record holding one entry stamped 5 (i.e. before the start of the
day) is returned by `loadHistory` with that stale entry still present. -/
theorem c2_load_keeps_stale_entry :
    loadHistory (some c2SavedStr) =
      .ok (.arr [.obj [("session", .str "pomodoro"), ("timestamp", .num 5),
        ("duration", .num 25), ("icon", .str "")]]) ∧
    (5 : Int) < 100 := by
  constructor
  · rfl
  · decide

/-- C2 (amended): the current-day filter is applied on every append — after
any `addToHistory`, every retained entry is stamped at or after the start of
the current day — while the construction-time load returns whatever was
persisted, unfiltered (`loadHistory` hands back the parsed value as-is). -/
theorem c2_filter_on_append_only (todayStart now : Int) (c : Catalog)
    (k : SessionKind) (hist : List HistoryEntry) :
    (∀ e ∈ addToHistory todayStart now c k hist, todayStart ≤ e.timestamp) ∧
    (∀ s j, jsonParse s = some j → s ≠ "" →
      loadHistory (some s) = .ok j) := by
  constructor
  · intro e he
    simp only [addToHistory, List.mem_filter, decide_eq_true_eq] at he
    exact he.2
  · intro s j hj hne
    simp [loadHistory, hne, hj]

/-- Witness for the amended C2: a concrete append keeps an entry stamped
inside the day, and a concrete well-formed load is returned as-is. -/
theorem c2_filter_on_append_only_witness :
    (0 : Int) ≤ (HistoryEntry.mk SessionKind.pomodoro 7 25 "").timestamp ∧
    loadHistory (some "[]") = .ok (.arr []) :=
  ⟨(c2_filter_on_append_only 0 7 ⟨25, 5, 15⟩ .pomodoro []).1
      ⟨.pomodoro, 7, 25, ""⟩ (by decide),
   (c2_filter_on_append_only 0 7 ⟨25, 5, 15⟩ .pomodoro []).2 "[]" (.arr [])
      (by rfl) (by decide)⟩

/-- C3 counterexample: loading malformed persisted data does NOT fail soft —
`loadHistory` calls `JSON.parse` with no try/catch, so on the malformed
stored string `"\x7b"` the `SyntaxError` propagates instead of yielding an
empty sequence. -/
theorem c3_malformed_throws :
    loadHistory (some "\x7b") = .error "SyntaxError" := by rfl

/-- C3 (amended): construction fails soft only for absent (or falsy empty)
persisted data, which yields an empty sequence; for malformed non-empty
data the `JSON.parse` exception surfaces, and well-formed data is returned
as parsed. -/
theorem c3_load_soft_only_when_absent :
    loadHistory none = .ok (.arr []) ∧
    loadHistory (some "") = .ok (.arr []) ∧
    (∀ s, s ≠ "" → jsonParse s = none →
      loadHistory (some s) = .error "SyntaxError") ∧
    (∀ s j, s ≠ "" → jsonParse s = some j → loadHistory (some s) = .ok j) := by
  refine ⟨rfl, rfl, ?_, ?_⟩
  · intro s hne hj
    simp [loadHistory, hne, hj]
  · intro s j hne hj
    simp [loadHistory, hne, hj]

/-- Witness for the amended C3: a concrete malformed load errors and a
concrete well-formed load succeeds. -/
theorem c3_load_soft_only_when_absent_witness :
    loadHistory (some "xx") = .error "SyntaxError" ∧
    loadHistory (some "[]") = .ok (.arr []) :=
  ⟨c3_load_soft_only_when_absent.2.2.1 "xx" (by decide) (by rfl),
   c3_load_soft_only_when_absent.2.2.2 "[]" (.arr []) (by decide) (by rfl)⟩

/-- C4 counterexample: `pomodorosInCycle` escapes the claimed range [0,4].
`sessionComplete` increments the counter immediately but the reset to 0
happens only in the deferred `prepareNextSession` 3 seconds later, and
`skipSession` is enabled whenever the timer is not running — so five skips
delivered before any deferred callback fires drive the counter to 5 in a
reachable state. -/
theorem c4_cycle_counter_exceeds_four :
    Reachable init0
      (runEvents init0 [.skip 1, .skip 2, .skip 3, .skip 4, .skip 5]) ∧
    (runEvents init0
      [.skip 1, .skip 2, .skip 3, .skip 4, .skip 5]).pomodorosInCycle = 5 :=
  ⟨reachable_runEvents init0 _, by decide⟩

/-- The part of the C4 range invariant that the code does maintain:
the three cycle counters are nonnegative. -/
def CounterInv (s : MState) : Prop :=
  0 ≤ s.pomodorosInCycle ∧ 0 ≤ s.totalPomodoros ∧ 0 ≤ s.currentStreak

theorem counterInv_sessionComplete (now : Int) (s : MState)
    (h : CounterInv s) : CounterInv (sessionComplete now s) := by
  obtain ⟨h1, h2, h3⟩ := h
  simp only [sessionComplete, CounterInv]
  split
  · split <;> refine ⟨?_, ?_, ?_⟩ <;> simp <;> omega
  · exact ⟨h1, h2, h3⟩

theorem counterInv_step (s : MState) (e : Ev) (h : CounterInv s) :
    CounterInv (step s e) := by
  obtain ⟨h1, h2, h3⟩ := h
  cases e with
  | toggle => by_cases hr : s.isRunning <;> simp [step, hr, CounterInv] <;> omega
  | tick now =>
    simp only [step]
    split
    · exact counterInv_sessionComplete now _ ⟨h1, h2, h3⟩
    · exact ⟨h1, h2, h3⟩
  | reset => exact ⟨h1, h2, h3⟩
  | changeMode k =>
    by_cases hr : s.isRunning <;> simp [step, hr, CounterInv] <;> omega
  | skip now =>
    by_cases hr : s.isRunning <;> simp only [step, hr, if_pos, if_neg,
      Bool.false_eq_true, ite_true, ite_false]
    · exact ⟨h1, h2, h3⟩
    · exact counterInv_sessionComplete now s ⟨h1, h2, h3⟩
  | deferredFire =>
    simp only [step, fireDeferred]
    match hp : s.pending with
    | [] => exact ⟨h1, h2, h3⟩
    | auto :: rest =>
      have hcyc : 0 ≤ (nextSessionOf s.currentSession s.pomodorosInCycle).2 := by
        cases s.currentSession <;> simp only [nextSessionOf] <;>
          first
          | (split
             · omega
             · omega)
          | omega
      cases auto <;> simp [prepareNextSessionM, CounterInv] <;>
        exact ⟨hcyc, h2, h3⟩

/-- C4 (amended): in every reachable state of the machine (from any start
state whose counters are nonnegative, under any sequence of toggle, tick,
reset, changeMode, skip, completion and deferred events), `pomodorosInCycle`,
`totalPomodoros` and `currentStreak` are integers ≥ 0; the claimed upper
bound 4 on `pomodorosInCycle` does not hold. -/
theorem c4_counters_nonneg (init s : MState) (h0 : CounterInv init)
    (h : Reachable init s) : CounterInv s := by
  induction h with
  | refl => exact h0
  | step e _ ih => exact counterInv_step _ e ih

/-- Witness for the amended C4: the counters of a concrete reachable state
(one skipped pomodoro, one tick) are nonnegative. -/
theorem c4_counters_nonneg_witness :
    CounterInv (runEvents init0 [.skip 1, .tick 2]) :=
  c4_counters_nonneg init0 (runEvents init0 [.skip 1, .tick 2])
    (by exact ⟨by decide, by decide, by decide⟩)
    (reachable_runEvents init0 _)

/-- C5: the three cycle counters each advance by exactly 1 on session
completion when and only when the completed session's kind is `pomodoro`;
completing `long-focus`, `refocus-2` or any break leaves them unchanged. -/
theorem c5_counters_iff_pomodoro (now : Int) (s : MState) :
    (sessionComplete now s).pomodorosInCycle =
        s.pomodorosInCycle +
          (if s.currentSession = SessionKind.pomodoro then 1 else 0) ∧
    (sessionComplete now s).totalPomodoros =
        s.totalPomodoros +
          (if s.currentSession = SessionKind.pomodoro then 1 else 0) ∧
    (sessionComplete now s).currentStreak =
        s.currentStreak +
          (if s.currentSession = SessionKind.pomodoro then 1 else 0) := by
  cases h : s.currentSession <;>
    simp [sessionComplete, sessionType, h]

/-- C6: (the code violates the claim) the deferred next-session action is
not superseded by an intervening `changeMode`.  From the initial state,
skip a pomodoro (scheduling the deferred callback), then `changeMode` to
`long-focus` during the 3-second window: when the deferred callback fires
it still runs `prepareNextSession`, switching the machine from the
user-chosen `long-focus` to `long-break` — so the session established by
the intervening `changeMode` does not remain current. -/
theorem c6_deferred_fires_after_changeMode :
    (runEvents init0 [.skip 1, .changeMode .longFocus]).currentSession =
      SessionKind.longFocus ∧
    (runEvents init0
      [.skip 1, .changeMode .longFocus, .deferredFire]).currentSession =
      SessionKind.longBreak ∧
    (runEvents init0
      [.skip 1, .changeMode .longFocus, .deferredFire]).currentSession ≠
      SessionKind.longFocus ∧
    Reachable init0
      (runEvents init0 [.skip 1, .changeMode .longFocus, .deferredFire]) :=
  ⟨by decide, by decide, by decide, reachable_runEvents init0 _⟩

theorem sessionComplete_remaining (now : Int) (s : MState) :
    (sessionComplete now s).remainingSeconds = 0 := by
  simp only [sessionComplete]
  split
  · split <;> rfl
  · rfl

/-- C7: on every tick delivered while `remainingSeconds > 0` the handler
decreases `remainingSeconds` by exactly 1 and it never becomes negative:
when the decrement reaches 0 the handler invokes `sessionComplete` (which
forces `remainingSeconds` to exactly 0), and otherwise the tick changes
nothing but the remaining time. -/
theorem c7_tick_decrement (now : Int) (s : MState)
    (h : 0 < s.remainingSeconds) :
    (step s (Ev.tick now)).remainingSeconds = s.remainingSeconds - 1 ∧
    0 ≤ (step s (Ev.tick now)).remainingSeconds ∧
    (s.remainingSeconds = 1 →
      step s (Ev.tick now) =
        sessionComplete now { s with remainingSeconds := 0 }) ∧
    (1 < s.remainingSeconds →
      step s (Ev.tick now) =
        { s with remainingSeconds := s.remainingSeconds - 1 }) := by
  by_cases h1 : s.remainingSeconds - 1 ≤ 0
  · have he : s.remainingSeconds = 1 := by omega
    refine ⟨?_, ?_, ?_, ?_⟩
    · simp [step, h1, he, sessionComplete_remaining]
    · simp [step, h1, sessionComplete_remaining]
    · intro _
      simp only [step, h1, if_pos, he]
      norm_num
    · intro hc; omega
  · refine ⟨?_, ?_, ?_, ?_⟩
    · simp [step, h1]
    · simp [step, h1]; omega
    · intro he; omega
    · intro _; simp [step, h1]

/-- Witness for C7: one tick on the freshly constructed state takes the
remaining time from 1500 to 1499. -/
theorem c7_tick_decrement_witness :
    (step init0 (Ev.tick 7)).remainingSeconds =
      init0.remainingSeconds - 1 :=
  (c7_tick_decrement 7 init0 (by decide)).1

/-- C8: the auto-start decision recorded at session completion consults
`autoStartBreaks` when the completed session's category is work and
`autoStartPomodoros` when it is break, falling back to the legacy auto-mode
toggle only when that category flag is false: the scheduled action
auto-starts if and only if the applicable category flag is true or, that
flag being false, the legacy toggle is checked. -/
theorem c8_autostart_policy (now : Int) (s : MState) :
    (sessionComplete now s).pending = s.pending ++ [decideAutoStart s] ∧
    decideAutoStart s =
      ((if sessionType s.currentSession = SessionType.work then
          s.settings.autoStartBreaks
        else s.settings.autoStartPomodoros) ||
       (!(if sessionType s.currentSession = SessionType.work then
            s.settings.autoStartBreaks
          else s.settings.autoStartPomodoros) &&
        s.autoModeChecked)) := by
  constructor
  · simp only [sessionComplete]
    split <;> [skip; simp [decideAutoStart]]
    split <;> simp [decideAutoStart]
  · cases hw : sessionType s.currentSession <;>
      cases hb : s.settings.autoStartBreaks <;>
      cases hp : s.settings.autoStartPomodoros <;>
      cases hm : s.autoModeChecked <;>
      simp [decideAutoStart, hw, hb, hp, hm]

/-- C9: saving settings from the modal updates the catalog durations for
`pomodoro`, `short-break` and `long-break`; when the timer is not running
the current session's `totalSeconds`/`remainingSeconds` are immediately
recomputed from the updated catalog, and when it is running the in-progress
countdown is left untouched. -/
theorem c9_save_settings (pom sb lb : Nat) (aSB aSP : Bool) (s : MState) :
    (saveSettingsFromModal pom sb lb aSB aSP s).catalog = ⟨pom, sb, lb⟩ ∧
    (s.isRunning = false →
      (saveSettingsFromModal pom sb lb aSB aSP s).totalSeconds =
        (sessionMinutes ⟨pom, sb, lb⟩ s.currentSession : Int) * 60 ∧
      (saveSettingsFromModal pom sb lb aSB aSP s).remainingSeconds =
        (sessionMinutes ⟨pom, sb, lb⟩ s.currentSession : Int) * 60) ∧
    (s.isRunning = true →
      (saveSettingsFromModal pom sb lb aSB aSP s).totalSeconds =
        s.totalSeconds ∧
      (saveSettingsFromModal pom sb lb aSB aSP s).remainingSeconds =
        s.remainingSeconds) := by
  refine ⟨?_, ?_, ?_⟩
  · cases hr : s.isRunning <;> simp [saveSettingsFromModal, hr]
  · intro hr; simp [saveSettingsFromModal, hr]
  · intro hr; simp [saveSettingsFromModal, hr]

/-- Witness for C9: saving 30/7/20 on the idle initial state updates the
catalog and resizes the selected pomodoro to 1800 seconds. -/
theorem c9_save_settings_witness :
    (saveSettingsFromModal 30 7 20 true false init0).catalog = ⟨30, 7, 20⟩ ∧
    (saveSettingsFromModal 30 7 20 true false init0).remainingSeconds = 1800 :=
  ⟨(c9_save_settings 30 7 20 true false init0).1,
   ((c9_save_settings 30 7 20 true false init0).2.1 rfl).2⟩

/-- C10: a clear-history call whose confirmation prompt is declined is a
complete no-op — the whole machine state, in particular the in-memory
history list and the persisted history record, is exactly what it was. -/
theorem c10_clear_declined (s : MState) : clearHistory false s = s := by
  simp [clearHistory]

end Pomodoro
